import Mathlib

/-!
Shallow embedding of the command-approval core of the repository
(`src/codex-cli/src/approvals.ts`, the exec gate in the handle-exec module,
and the exit-code mapping of `src/codex-cli/src/utils/agent/sandbox/raw-exec.ts`),
together with theorems settling the frozen claims about it.

JavaScript strings are modelled as Lean `String`; argv arrays as `List String`;
`null`/`undefined` as `Option`; machine integers do not occur (exit codes are
small ints, modelled as `Int`).  External collaborators used by the code but
not present under `src/` (the `apply-patch` path extractors, the `shell-quote`
tokenizer, `process.cwd()` and `process.platform`) are threaded through an
explicit `Extern` record so that every theorem is stated for an arbitrary
environment and witnesses instantiate it concretely.
-/

namespace Codex

/-! ### JavaScript string primitives

Lean's built-in `String` functions are compiled by well-founded recursion and
do not reduce inside the kernel, so the JavaScript string operations used by
the source are modelled directly over the character list `String.data` with
structural recursion.  All inputs of interest are ASCII; case mapping is the
ASCII one. -/

/-- JavaScript `s.toLowerCase()` (ASCII). -/
def jsToLower (s : String) : String := String.mk (s.data.map Char.toLower)

/-- JavaScript `s.startsWith(pfx)`. -/
def jsStartsWith (s pfx : String) : Bool := pfx.data.isPrefixOf s.data

/-- JavaScript `s.endsWith(sfx)`. -/
def jsEndsWith (s sfx : String) : Bool := sfx.data.isSuffixOf s.data

/-- JavaScript `s.includes(c)` for a single character. -/
def jsIncludesChar (s : String) (c : Char) : Bool := s.data.contains c

/-- JavaScript `s.slice(n)` (drop the first `n` UTF-16 units; ASCII here). -/
def jsDrop (s : String) (n : Nat) : String := String.mk (s.data.drop n)

/-- Drop the last `n` characters (used for `s.slice(1, -1)`). -/
def jsDropRight (s : String) (n : Nat) : String :=
  String.mk (s.data.take (s.data.length - n))

/-- JavaScript `s.length` (UTF-16 units; ASCII here). -/
def strLen (s : String) : Nat := s.data.length

/-- Splitting on a single separator character, as JavaScript
`s.split(sep)` for a one-character separator. -/
def splitCharAux (sep : Char) (acc : List Char) : List Char → List String
  | [] => [String.mk acc.reverse]
  | c :: rest =>
    if c = sep then String.mk acc.reverse :: splitCharAux sep [] rest
    else splitCharAux sep (c :: acc) rest

/-- JavaScript `s.split(sep)` for a one-character separator. -/
def jsSplitChar (sep : Char) (s : String) : List String := splitCharAux sep [] s.data

/-- Join a list of strings with a separator (Node's `segments.join("/")`). -/
def joinSeps (sep : String) : List String → String
  | [] => ""
  | [x] => x
  | x :: xs => x ++ sep ++ joinSeps sep xs

/-- The backtick character (ASCII 96), used by the metacharacter guard of the
`ls`/`cat`/`grep` handlers (`arg.includes("\x60")` in the source). -/
def btick : Char := Char.ofNat 96

/-- Guard used by the `ls`, `cat` and `grep` handlers:
`arg.includes("\x60") || arg.includes("$")`. -/
def hasShellMeta (arg : String) : Bool :=
  jsIncludesChar arg btick || jsIncludesChar arg '$'

/-- `SafeCommandReason` from approvals.ts. -/
structure SafeCommandReason where
  reason : String
  group : String
deriving DecidableEq, Repr

/-- `SafetyAssessment` from approvals.ts.  The optional `applyPatch` payload
(`ApplyPatchCommand = \x7b patch: string \x7d`) is modelled as the patch string. -/
inductive SafetyAssessment where
  | autoApprove (runInSandbox : Bool) (reason : String) (group : String)
      (applyPatch : Option String)
  | askUser (applyPatch : Option String)
  | reject (reason : String)
deriving DecidableEq, Repr

/-- `ApprovalPolicy` from approvals.ts: `"suggest" | "auto-edit" | "full-auto"
| "full_auto" | "none"`. -/
inductive ApprovalPolicy where
  | suggest
  | autoEdit
  | fullAuto
  | fullAutoUI
  | nonePolicy
deriving DecidableEq, Repr

/-- The string value of a policy, used in template strings of the source. -/
def policyStr : ApprovalPolicy → String
  | .suggest => "suggest"
  | .autoEdit => "auto-edit"
  | .fullAuto => "full-auto"
  | .fullAutoUI => "full_auto"
  | .nonePolicy => "none"

/-- `isFullAutoOrNone` from approvals.ts. -/
def isFullAutoOrNone (policy : ApprovalPolicy) : Bool :=
  policy = ApprovalPolicy.fullAuto ∨ policy = ApprovalPolicy.fullAutoUI ∨
    policy = ApprovalPolicy.nonePolicy

/-- `VALID_SED_N_ARG = /^[0-9]+(,[0-9]+)?[p]$/` applied to a defined argument
(`isValidSedNArg` returns false on `undefined`). -/
def validSedN (s : String) : Bool :=
  let cs := s.toList
  let ds := cs.takeWhile Char.isDigit
  let rest := cs.dropWhile Char.isDigit
  ds ≠ [] &&
    (rest = ['p'] ||
      (match rest with
       | ',' :: rest2 =>
           let ds2 := rest2.takeWhile Char.isDigit
           ds2 ≠ [] && rest2.dropWhile Char.isDigit = ['p']
       | _ => false))

/-- `UNSAFE_OPTIONS_FOR_FIND_COMMAND` from approvals.ts. -/
def UNSAFE_OPTIONS_FOR_FIND_COMMAND : List String :=
  ["-exec", "-execdir", "-ok", "-okdir", "-delete",
   "-fls", "-fprint", "-fprint0", "-fprintf"]

/-- The `dir` handler (recognized only on win32). -/
def dirHandler (platform : String) (cmdArray : List String) : Option SafeCommandReason :=
  if platform ≠ "win32" then Option.none
  else if cmdArray.length = 1 && jsToLower ((cmdArray.get? 0).getD "") = "dir" then
    some ⟨"List directory contents", "File system"⟩
  else if cmdArray.length = 3 && jsToLower ((cmdArray.get? 0).getD "") = "dir" &&
      (cmdArray.get? 1 = some ">" || cmdArray.get? 1 = some ">>") &&
      (cmdArray.get? 2).getD "" ≠ "" &&
      !(jsStartsWith ((cmdArray.get? 2).getD "") "-") then
    some ⟨"List directory contents and redirect to file", "File system"⟩
  else if (cmdArray.drop 1).all (fun arg =>
      arg = "" ||
        (!(jsStartsWith arg "/") && !(jsStartsWith arg "-")) ||
        jsToLower arg ∈ ["/ad", "/b", "/s", "/o", "/on", "/od", "/og", "/os", "/oe", "/a"]) then
    some ⟨"List directory contents", "File system"⟩
  else Option.none

/-- The lookup table `safeSubCommands` of the `git` handler. -/
def gitSafeSub (sub : String) : Option String :=
  if sub = "status" then some "View status"
  else if sub = "diff" then some "View differences"
  else if sub = "log" then some "View history"
  else if sub = "show" then some "View specific commit/object"
  else if sub = "branch" then some "List branches"
  else if sub = "tag" then some "List tags"
  else if sub = "rev-parse" then some "Find commit IDs"
  else if sub = "shortlog -s -n" then some "Summarize git log"
  else Option.none

/-- The `git` handler from approvals.ts. -/
def gitHandler (cmdArray : List String) : Option SafeCommandReason :=
  match cmdArray.get? 1 with
  | Option.none => Option.none
  | some s1 =>
    let sub := jsToLower s1
    if sub = "" then Option.none
    else if sub = "shortlog" && decide (cmdArray.length ≥ 4) &&
        cmdArray.get? 2 = some "-s" && cmdArray.get? 3 = some "-n" then
      some ⟨"Summarize git log", "Versioning"⟩
    else
      match gitSafeSub sub with
      | some reasonText =>
        if (sub = "branch" || sub = "tag") && decide (cmdArray.length > 2) &&
            (cmdArray.drop 2).all (fun arg => !(jsStartsWith arg "-")) then
          Option.none
        else
          some ⟨reasonText, if sub ∈ ["diff", "log", "show"] then "Using git" else "Versioning"⟩
      | Option.none =>
        if sub = "apply" && cmdArray.contains "--check" && cmdArray.contains "--stat" then
          some ⟨"Check patch applicability", "Source control"⟩
        else Option.none

/-- The `sed` handler from approvals.ts. -/
def sedHandler (cmdArray : List String) : Option SafeCommandReason :=
  if jsToLower ((cmdArray.get? 1).getD "") = "-n" &&
      (match cmdArray.get? 2 with
       | some a => validSedN a
       | Option.none => false) &&
      (cmdArray.length = 3 || cmdArray.length = 4) then
    some ⟨"Sed print subset", "Reading files"⟩
  else Option.none

/-- The `start` handler from approvals.ts (win32 only). -/
def startHandler (platform : String) (cmdArray : List String) : Option SafeCommandReason :=
  if platform ≠ "win32" then Option.none
  else if cmdArray.length = 2 then
    match cmdArray.get? 1 with
    | some filePath =>
      if filePath ≠ "" && !(jsStartsWith filePath "-") && !(jsStartsWith filePath "/") then
        some ⟨"Open file/directory with default application", "File system"⟩
      else Option.none
    | Option.none => Option.none
  else if cmdArray.length = 3 then
    let program := jsToLower ((cmdArray.get? 1).getD "")
    match cmdArray.get? 2 with
    | some argument =>
      if program ∈ ["notepad", "explorer"] && argument ≠ "" &&
          (program = "explorer" ||
            (!(jsStartsWith argument "-") && !(jsStartsWith argument "/"))) then
        some ⟨"Open with " ++ program, "File system"⟩
      else Option.none
    | Option.none => Option.none
  else Option.none

/-- The `cmd` handler from approvals.ts (win32 only). -/
def cmdHandler (platform : String) (cmdArray : List String) : Option SafeCommandReason :=
  if platform ≠ "win32" then Option.none
  else if cmdArray.length = 3 && jsToLower ((cmdArray.get? 0).getD "") = "cmd" &&
      jsToLower ((cmdArray.get? 1).getD "") = "/c" &&
      jsToLower ((cmdArray.get? 2).getD "") = "dir" then
    some ⟨"List directory contents via cmd", "File system"⟩
  else if cmdArray.length = 5 && jsToLower ((cmdArray.get? 0).getD "") = "cmd" &&
      jsToLower ((cmdArray.get? 1).getD "") = "/c" &&
      jsToLower ((cmdArray.get? 2).getD "") = "dir" &&
      (cmdArray.get? 3 = some ">" || cmdArray.get? 3 = some ">>") &&
      (cmdArray.get? 4).getD "" ≠ "" &&
      !(jsStartsWith ((cmdArray.get? 4).getD "") "-") then
    some ⟨"List directory contents via cmd and redirect to file", "File system"⟩
  else Option.none

/-- The `find` handler from approvals.ts. -/
def findHandler (cmdArray : List String) : Option SafeCommandReason :=
  if cmdArray.any (fun arg => arg ∈ UNSAFE_OPTIONS_FOR_FIND_COMMAND) then Option.none
  else some ⟨"Find files or directories", "Searching"⟩

/-- The `type` handler from approvals.ts (win32 only). -/
def typeHandler (platform : String) (cmdArray : List String) : Option SafeCommandReason :=
  if platform ≠ "win32" then Option.none
  else if cmdArray.length = 2 &&
      jsToLower ((cmdArray.get? 0).getD "") = "type" &&
      (cmdArray.get? 1).getD "" ≠ "" &&
      !(jsStartsWith ((cmdArray.get? 1).getD "") "/") &&
      !(jsStartsWith ((cmdArray.get? 1).getD "") "-") then
    some ⟨"Display file contents", "File system"⟩
  else Option.none

/-- The one-off repair heuristic for an over-quoted `'dir > file.txt'`
single-string command (the workaround block at the top of `isSafeCommand`).
Returns `some` when the workaround fires, `Option.none` when control falls
through to the normal dispatch. -/
def dirQuoteWorkaround (s : String) : Option SafeCommandReason :=
  if jsStartsWith s "'dir > " && jsEndsWith s "'" then
    let innerCommand := jsDropRight (jsDrop s 1) 1
    let parts := jsSplitChar ' ' innerCommand
    if parts.length = 3 && jsToLower ((parts.get? 0).getD "") = "dir" &&
        parts.get? 1 = some ">" then
      let filename := (parts.get? 2).getD ""
      if filename ≠ "" && !(jsStartsWith filename "/") && !(jsStartsWith filename "-") then
        some ⟨"List directory contents and redirect to file (auto-approved due to unwrapping agent's quotes)",
              "File system"⟩
      else Option.none
    else Option.none
  else Option.none

/-- The handler dispatch table `commandHandlers` plus the final lookup of
`isSafeCommand`.  `platform` models `process.platform`. -/
def dispatchHandler (platform : String) (cmdName : String) (command : List String) :
    Option SafeCommandReason :=
  if cmdName = "cd" then some ⟨"Change directory", "Navigating"⟩
  else if cmdName = "ls" then
    (if (command.drop 1).any hasShellMeta then Option.none
     else some ⟨"List directory", "Searching"⟩)
  else if cmdName = "dir" then dirHandler platform command
  else if cmdName = "pwd" then some ⟨"Print working directory", "Navigating"⟩
  else if cmdName = "true" then some ⟨"No-op (true)", "Utility"⟩
  else if cmdName = "false" then some ⟨"No-op (false)", "Utility"⟩
  else if cmdName = "echo" then some ⟨"Echo string", "Printing"⟩
  else if cmdName = "cat" then
    (if (command.drop 1).any hasShellMeta then Option.none
     else some ⟨"View file contents", "Reading files"⟩)
  else if cmdName = "nl" then some ⟨"View file with line numbers", "Reading files"⟩
  else if cmdName = "clear" then some ⟨"Clear screen", "Utility"⟩
  else if cmdName = "grep" then
    (if (command.drop 1).any hasShellMeta then Option.none
     else some ⟨"Text search (grep)", "Searching"⟩)
  else if cmdName = "head" then some ⟨"Show file head", "Reading files"⟩
  else if cmdName = "tail" then some ⟨"Show file tail", "Reading files"⟩
  else if cmdName = "which" then some ⟨"Locate command", "Searching"⟩
  else if cmdName = "git" then gitHandler command
  else if cmdName = "cargo" then
    (if jsToLower ((command.get? 1).getD "") = "check" then
       some ⟨"Cargo check", "Building"⟩
     else Option.none)
  else if cmdName = "sed" then sedHandler command
  else if cmdName = "start" then startHandler platform command
  else if cmdName = "cmd" then cmdHandler platform command
  else if cmdName = "find" then findHandler command
  else if cmdName = "rg" then some ⟨"Ripgrep search", "Searching"⟩
  else if cmdName = "wc" then some ⟨"Word count", "Reading files"⟩
  else if cmdName = "type" then typeHandler platform command
  else Option.none

/-- `isSafeCommand` from approvals.ts.  `platform` models `process.platform`
(read globally by the source). -/
def isSafeCommand (platform : String) (command : List String) : Option SafeCommandReason :=
  match command with
  | [] => Option.none
  | c0 :: rest =>
    if jsToLower c0 = "powershell" || jsToLower c0 = "pwsh" then
      some ⟨"PowerShell command", "PowerShell"⟩
    else
      match (if rest.isEmpty then dirQuoteWorkaround c0 else Option.none) with
      | some r => some r
      | Option.none =>
        let cmdName := jsToLower c0
        if cmdName = "" then Option.none
        else dispatchHandler platform cmdName (c0 :: rest)

/-! ## Shell expression evaluator (`isEntireShellExpressionSafe`) -/

/-- A `shell-quote` `ParseEntry`: a literal string, an object carrying an
`op` field (control operators and globs, whose `op` is `"glob"`), or a
comment object (which carries no `op` field). -/
inductive ParseEntry where
  | str (s : String)
  | op (o : String)
  | comment (c : String)
deriving DecidableEq, Repr

/-- `SAFE_SHELL_OPERATORS` from approvals.ts. -/
def SAFE_SHELL_OPERATORS : List String := ["&&", "||", "|", ";"]

/-- The parenthesis/brace test on string tokens in `isEntireShellExpressionSafe`. -/
def isParenToken (s : String) : Bool :=
  s = "(" || s = ")" || s = "\x7b" || s = "\x7d"

/-- `flushSegment` from `isEntireShellExpressionSafe`: validates the
accumulated segment.  Returns `Option.none` on an unsafe segment, otherwise
the updated `firstReason`. -/
def flushSegment (platform : String) (cur : List String)
    (firstReason : Option SafeCommandReason) :
    Option (Option SafeCommandReason) :=
  if cur.isEmpty then some firstReason
  else
    match isSafeCommand platform cur with
    | Option.none => Option.none
    | some a => some (match firstReason with | some r => some r | Option.none => some a)

/-- The main loop of `isEntireShellExpressionSafe`, over the remaining parts
with the accumulated current segment and first reason. -/
def safeLoop (platform : String) (cur : List String)
    (firstReason : Option SafeCommandReason) :
    List ParseEntry → Option SafeCommandReason
  | [] =>
    (match flushSegment platform cur firstReason with
     | Option.none => Option.none
     | some fr => fr)
  | .str s :: rest =>
    if isParenToken s then Option.none
    else safeLoop platform (cur ++ [s]) firstReason rest
  | .op o :: rest =>
    (match flushSegment platform cur firstReason with
     | Option.none => Option.none
     | some fr =>
       if o ∈ SAFE_SHELL_OPERATORS then safeLoop platform [] fr rest
       else Option.none)
  | .comment _ :: _ => Option.none

/-- `isEntireShellExpressionSafe` from approvals.ts. -/
def isEntireShellExpressionSafe (platform : String) (parts : List ParseEntry) :
    Option SafeCommandReason :=
  if parts.isEmpty then Option.none
  else safeLoop platform [] Option.none parts

/-! ## Node `path.posix` model

The source calls Node's `path` module (`normalize`, `isAbsolute`, `resolve`,
`relative`).  These are modelled here with POSIX semantics, following the
algorithms of Node's `path.posix` implementation. -/

namespace NodePath

/-- `path.isAbsolute` (posix). -/
def isAbsolute (p : String) : Bool := jsStartsWith p "/"

/-- Split a path on `/` separators. -/
def splitOnSlash (p : String) : List String := jsSplitChar '/' p

/-- Node's `normalizeString`: process `.` and `..` segments.  `acc` holds the
already-emitted segments in reverse.  `allowAboveRoot` keeps leading `..`
segments (relative paths); for absolute paths they are dropped at the root. -/
def normSegs (allowAboveRoot : Bool) (acc : List String) :
    List String → List String
  | [] => acc.reverse
  | seg :: rest =>
    if seg = "" || seg = "." then normSegs allowAboveRoot acc rest
    else if seg = ".." then
      match acc with
      | top :: accTail =>
        if top = ".." then normSegs allowAboveRoot (".." :: acc) rest
        else normSegs allowAboveRoot accTail rest
      | [] =>
        if allowAboveRoot then normSegs allowAboveRoot [".."] rest
        else normSegs allowAboveRoot [] rest
    else normSegs allowAboveRoot (seg :: acc) rest

/-- `path.normalize` (posix). -/
def normalize (p : String) : String :=
  if p = "" then "."
  else
    let abs := isAbsolute p
    let trailing := jsEndsWith p "/"
    let out := joinSeps "/" (normSegs (!abs) [] (splitOnSlash p))
    if out = "" then (if abs then "/" else if trailing then "./" else ".")
    else
      let out := if trailing then out ++ "/" else out
      if abs then "/" ++ out else out

/-- One step of `path.resolve`'s right-to-left accumulation. -/
def resolveStep (p : String) : String × Bool → String × Bool
  | (r, true) => (r, true)
  | (r, false) => if p = "" then (r, false) else (p ++ "/" ++ r, isAbsolute p)

/-- `path.resolve(...args)` (posix), with `process.cwd()` passed explicitly. -/
def resolveList (cwd : String) (args : List String) : String :=
  let acc := args.foldr resolveStep ("", false)
  let acc2 := if acc.2 then acc else resolveStep cwd acc
  let out := joinSeps "/" (normSegs (!acc2.2) [] (splitOnSlash acc2.1))
  if acc2.2 then "/" ++ out else (if out = "" then "." else out)

/-- Length of the common segment prefix of two split paths. -/
def commonPrefixLen : List String → List String → Nat
  | a :: as, b :: bs => if a = b then 1 + commonPrefixLen as bs else 0
  | _, _ => 0

/-- `path.relative(from, to)` (posix), with `process.cwd()` passed explicitly. -/
def relative (cwd fromP toP : String) : String :=
  let f := resolveList cwd [fromP]
  let t := resolveList cwd [toP]
  if f = t then ""
  else
    let fs := (splitOnSlash f).filter (fun s => s ≠ "")
    let ts := (splitOnSlash t).filter (fun s => s ≠ "")
    let common := commonPrefixLen fs ts
    joinSeps "/" (List.replicate (fs.length - common) ".." ++ ts.drop common)

end NodePath

/-! ## Patch scope checker -/

/-- External collaborators of the approval core, threaded explicitly:

* `identifyFilesNeeded` / `identifyFilesAdded` — modelled from the spec:
  the `apply-patch` module that implements `identify_files_needed` /
  `identify_files_added` is not under `src/`; per the spec (§4.3) they are
  "two independent collaborators (external to this core)" that "extract from
  patch text the list of files the patch will modify/delete" and "the list of
  files it will add", so they are modelled as opaque extraction functions.
* `parseBash` — the `shell-quote` `parse(script, env)` call; `Option.none`
  models the tokenizer throwing (the `env` argument only affects tokenization
  and is folded into this function).
* `cwd` — `process.cwd()`.
* `platform` — `process.platform`. -/
structure Extern where
  identifyFilesNeeded : String → List String
  identifyFilesAdded : String → List String
  parseBash : String → Option (List ParseEntry)
  cwd : String
  platform : String

/-- `pathContains` from approvals.ts. -/
def pathContains (cwd parent child : String) : Bool :=
  let rel := NodePath.relative cwd parent child
  rel ≠ "" && !(jsStartsWith rel "..") && !(NodePath.isAbsolute rel)

/-- `resolvePathAgainstWorkdir` from approvals.ts. -/
def resolvePathAgainstWorkdir (cwd candidatePath : String) (workdir : Option String) :
    String :=
  let normalizedCandidatePath := NodePath.normalize candidatePath
  if NodePath.isAbsolute normalizedCandidatePath then normalizedCandidatePath
  else
    match workdir with
    | some wd => NodePath.resolveList cwd [wd, normalizedCandidatePath]
    | Option.none => NodePath.resolveList cwd [normalizedCandidatePath]

/-- `isPathConstrainedTowritablePaths` from approvals.ts. -/
def isPathConstrainedTowritablePaths (cwd candidatePath : String)
    (workdir : Option String) (writableRoots : List String) : Bool :=
  let candidateAbsolutePath := resolvePathAgainstWorkdir cwd candidatePath workdir
  writableRoots.any (fun w => pathContains cwd w candidateAbsolutePath)

/-- `allPathsConstrainedTowritablePaths` from approvals.ts. -/
def allPathsConstrainedTowritablePaths (cwd : String) (candidatePaths : List String)
    (workdir : Option String) (writableRoots : List String) : Bool :=
  candidatePaths.all (fun p => isPathConstrainedTowritablePaths cwd p workdir writableRoots)

/-- `isWritePatchConstrainedToWritablePaths` from approvals.ts. -/
def isWritePatchConstrainedToWritablePaths (ext : Extern) (applyPatchArg : String)
    (workdir : Option String) (writableRoots : List String) : Bool :=
  allPathsConstrainedTowritablePaths ext.cwd (ext.identifyFilesNeeded applyPatchArg)
      workdir writableRoots &&
    allPathsConstrainedTowritablePaths ext.cwd (ext.identifyFilesAdded applyPatchArg)
      workdir writableRoots

/-! ## Heredoc unwrapping (`tryParseApplyPatch`) -/

/-- ASCII part of JavaScript's `\s` character class. -/
def jsWs (c : Char) : Bool :=
  c = ' ' || c = '\t' || c = '\n' || c = '\r' || c = Char.ofNat 12 || c = Char.ofNat 11

/-- JavaScript `s.trim()` (ASCII whitespace). -/
def jsTrim (s : String) : String :=
  String.mk (((s.data.dropWhile jsWs).reverse.dropWhile jsWs).reverse)

/-- JavaScript's `\w` character class. -/
def jsWordChar (c : Char) : Bool :=
  ('a' ≤ c && c ≤ 'z') || ('A' ≤ c && c ≤ 'Z') || ('0' ≤ c && c ≤ '9') || c = '_'

/-- Lazy search of `([\s\S]*?)\n\1`: the shortest prefix of the input followed
by a newline and the marker.  `acc` holds the scanned prefix reversed. -/
def heredocBody (marker : List Char) (acc : List Char) :
    List Char → Option (List Char)
  | [] => Option.none
  | c :: rest =>
    if c = '\n' && marker.isPrefixOf rest then some acc.reverse
    else heredocBody marker (c :: acc) rest

/-- The regex `/^\s*<<\s*['"]?(\w+)['"]?\n([\s\S]*?)\n\1/` applied to the text
after the `apply_patch` token; returns the second capture group. -/
def heredocExtract (heredoc : String) : Option String :=
  match (heredoc.toList).dropWhile jsWs with
  | '<' :: '<' :: cs2 =>
    let cs3 := cs2.dropWhile jsWs
    let cs4 := match cs3 with
      | c :: t => if c = '\'' || c = '"' then t else cs3
      | [] => cs3
    let marker := cs4.takeWhile jsWordChar
    if marker.isEmpty then Option.none
    else
      let cs5 := cs4.dropWhile jsWordChar
      let cs6 := match cs5 with
        | c :: t => if c = '\'' || c = '"' then t else cs5
        | [] => cs5
      match cs6 with
      | '\n' :: body =>
        (match heredocBody marker [] body with
         | some b => some (String.mk b)
         | Option.none => Option.none)
      | _ => Option.none
  | _ => Option.none

/-- `tryParseApplyPatch` from approvals.ts. -/
def tryParseApplyPatch (bashArg : String) : Option String :=
  let pfx := "apply_patch"
  if !(jsStartsWith bashArg pfx) then Option.none
  else
    let heredoc := jsDrop bashArg (strLen pfx)
    match heredocExtract heredoc with
    | some body => some (jsTrim body)
    | Option.none => some (jsTrim heredoc)

/-! ## Approval decision engine (`canAutoApprove`) -/

/-- `canAutoApproveApplyPatch` from approvals.ts. -/
def canAutoApproveApplyPatch (ext : Extern) (applyPatchArg : String)
    (workdir : Option String) (writableRoots : List String)
    (policy : ApprovalPolicy) : SafetyAssessment :=
  if policy = ApprovalPolicy.nonePolicy then
    .autoApprove false "Approval policy is 'none' for apply_patch" "Editing"
      (some applyPatchArg)
  else if policy = ApprovalPolicy.suggest then .askUser (some applyPatchArg)
  else if isWritePatchConstrainedToWritablePaths ext applyPatchArg workdir writableRoots then
    .autoApprove false "apply_patch command is constrained to writable paths" "Editing"
      (some applyPatchArg)
  else if policy = ApprovalPolicy.fullAuto then
    .autoApprove true "Full auto mode" "Editing" (some applyPatchArg)
  else .askUser (some applyPatchArg)

/-- The shared ask-user/full-auto fallback at the bottom of `canAutoApprove`
(also used for the tokenizer-failure catch with a different reason text). -/
def canAutoApproveFallback (policy : ApprovalPolicy) (reasonSuffix : String) :
    SafetyAssessment :=
  if isFullAutoOrNone policy then
    .autoApprove (policy = ApprovalPolicy.fullAuto)
      ((if policy = ApprovalPolicy.fullAuto then "Full auto" else "None") ++ reasonSuffix)
      "Running commands" Option.none
  else .askUser Option.none

/-- `canAutoApprove` from approvals.ts.  `workdir` is the caller-supplied
working directory; external collaborators live in `ext`. -/
def canAutoApprove (ext : Extern) (command : List String) (workdir : Option String)
    (policy : ApprovalPolicy) (writableRoots : List String) : SafetyAssessment :=
  if isFullAutoOrNone policy then
    if command.head? = some "apply_patch" && decide (command.length ≠ 2) then
      .reject "Invalid apply_patch command"
    else
      .autoApprove (policy = ApprovalPolicy.fullAuto)
        ("Approval policy is '" ++ policyStr policy ++ "'")
        (if command.head? = some "apply_patch" then "Editing" else "Running commands")
        (if command.head? = some "apply_patch" then command.get? 1 else Option.none)
  else if command.head? = some "apply_patch" then
    match command with
    | [_, patchArg] => canAutoApproveApplyPatch ext patchArg workdir writableRoots policy
    | _ => .reject "Invalid apply_patch command"
  else
    match isSafeCommand ext.platform command with
    | some r => .autoApprove false r.reason r.group Option.none
    | Option.none =>
      match command with
      | ["bash", "-lc", script] =>
        (match tryParseApplyPatch script with
         | some applyPatchArg =>
           canAutoApproveApplyPatch ext applyPatchArg workdir writableRoots policy
         | Option.none =>
           match ext.parseBash script with
           | Option.none => canAutoApproveFallback policy " mode (unparsable bash command)"
           | some bashCmd =>
             match isEntireShellExpressionSafe ext.platform bashCmd with
             | some r => .autoApprove false r.reason r.group Option.none
             | Option.none =>
               canAutoApproveFallback policy " mode (command not on explicit safe list)")
      | _ => canAutoApproveFallback policy " mode (command not on explicit safe list)"

/-! ## Raw executor result mapping (`raw-exec.ts`) -/

/-- `ExecResult` (stdout, stderr, exitCode). -/
structure ExecResult where
  stdout : String
  stderr : String
  exitCode : Int
deriving DecidableEq, Repr

/-- `addTruncationWarningsIfNecessary` from raw-exec.ts. -/
def addTruncationWarningsIfNecessary (execResult : ExecResult)
    (hitMaxStdout hitMaxStderr : Bool) : ExecResult :=
  if !hitMaxStdout && !hitMaxStderr then execResult
  else
    { stdout :=
        if hitMaxStdout then
          execResult.stdout ++ "\n\n[Output truncated: too many lines or bytes]"
        else execResult.stdout
      stderr :=
        if hitMaxStderr then
          execResult.stderr ++ "\n\n[Output truncated: too many lines or bytes]"
        else execResult.stderr
      exitCode := execResult.exitCode }

/-- The `(code, signal)` → exit-code mapping of the `exit` handler in
raw-exec.ts.  `signals` models the `os.constants.signals` table of the host
(signal name → number). -/
def exitCodeFromStatus (signals : List (String × Nat)) (code : Option Int)
    (signal : Option String) : Int :=
  match code with
  | some c => c
  | Option.none =>
    match signal with
    | some s =>
      (match signals.lookup s with
       | some n => 128 + (n : Int)
       | Option.none => 1)
    | Option.none => 1

/-- The `ExecResult` resolved by the `exit` handler of raw-exec.ts, given the
collected (possibly truncated) stream contents and the collectors' hit flags. -/
def rawExecOnExit (signals : List (String × Nat)) (code : Option Int)
    (signal : Option String) (stdout stderr : String)
    (hitMaxStdout hitMaxStderr : Bool) : ExecResult :=
  addTruncationWarningsIfNecessary
    ⟨stdout, stderr, exitCodeFromStatus signals code signal⟩ hitMaxStdout hitMaxStderr

/-- The `ExecResult` resolved by the `error` handler of raw-exec.ts
(`String(err)` is the stringified error). -/
def rawExecOnError (err : String) (hitMaxStdout hitMaxStderr : Bool) : ExecResult :=
  addTruncationWarningsIfNecessary ⟨"", err, 1⟩ hitMaxStdout hitMaxStderr

/-! ## Exec gate and session approval cache (handle-exec module) -/

/-- JavaScript `s.split(/\s+/)`: splits on maximal whitespace runs, keeping an
empty leading (resp. trailing) element when the string starts (resp. ends)
with whitespace; `"".split` yields `[""]`. -/
def jsSplitWsAux (acc : List Char) : List Char → List String
  | [] => [String.mk acc.reverse]
  | c :: rest =>
    if jsWs c then String.mk acc.reverse :: jsSplitWsAux [] (rest.dropWhile jsWs)
    else jsSplitWsAux (c :: acc) rest
termination_by cs => cs.length
decreasing_by
  · have := (List.IsSuffix.sublist (List.dropWhile_suffix (l := rest) jsWs)).length_le
    simp only [List.length_cons]
    omega
  · simp

/-- JavaScript `s.split(/\s+/)`. -/
def jsSplitWs (s : String) : List String := jsSplitWsAux [] s.toList

/-- One hex digit. -/
def hexDigit (n : Nat) : Char :=
  if n < 10 then Char.ofNat ('0'.toNat + n) else Char.ofNat ('a'.toNat + (n - 10))

/-- `JSON.stringify` escaping of one character (ASCII control characters,
quote and backslash; other characters are emitted verbatim). -/
def jsonEscapeChar (c : Char) : String :=
  if c = '"' then "\\\""
  else if c = '\\' then "\\\\"
  else if c = '\n' then "\\n"
  else if c = '\r' then "\\r"
  else if c = '\t' then "\\t"
  else if c = Char.ofNat 8 then "\\b"
  else if c = Char.ofNat 12 then "\\f"
  else if c.toNat < 32 then
    "\\u00" ++ String.mk [hexDigit (c.toNat / 16), hexDigit (c.toNat % 16)]
  else String.mk [c]

/-- `JSON.stringify` of an array of strings. -/
def jsonStringify (l : List String) : String :=
  "[" ++ joinSeps ","
    (l.map (fun s => "\"" ++ joinSeps "" (s.data.map jsonEscapeChar) ++ "\"")) ++ "]"

/-- `deriveCommandKey` from the handle-exec module. -/
def deriveCommandKey (cmd : List String) : String :=
  let maybeShell := cmd.get? 0
  let maybeFlag := cmd.get? 1
  let coreInvocation := cmd.get? 2
  if jsStartsWith (coreInvocation.getD "") "apply_patch" then "apply_patch"
  else if maybeShell = some "bash" && maybeFlag = some "-lc" then
    let script := coreInvocation.getD ""
    let first := ((jsSplitWs script).get? 0).getD ""
    if first = "" then "bash" else first
  else
    match coreInvocation with
    | some s => if s ≠ "" then ((jsSplitWs s).get? 0).getD "" else jsonStringify cmd
    | Option.none => jsonStringify cmd

/-- `alwaysApprovedCommands.add(deriveCommandKey(args.cmd))` — the ALWAYS
branch of `askUserPermission` (the cache has `Set` semantics, modelled as a
duplicate-free insert into a list). -/
def alwaysApproveAdd (cache : List String) (cmd : List String) : List String :=
  let key := deriveCommandKey cmd
  if key ∈ cache then cache else key :: cache

/-- The three ways `handleExecCommand` continues after its gate: run the
command (with the given sandbox flag), report a rejection, or ask the user. -/
inductive HandleOutcome where
  | execCmd (runInSandbox : Bool)
  | rejected (reason : String)
  | askUserOutcome
deriving DecidableEq, Repr

/-- The decision layer of `handleExecCommand`: the session-approval-cache
check (step 1, which executes immediately with `runInSandbox = false`),
followed by the `canAutoApprove` assessment dispatch (steps 2–3). -/
def handleExecCommandDecision (ext : Extern) (cache : List String)
    (command : List String) (workdir : Option String) (policy : ApprovalPolicy)
    (writableRoots : List String) : HandleOutcome :=
  if deriveCommandKey command ∈ cache then .execCmd false
  else
    match canAutoApprove ext command workdir policy writableRoots with
    | .autoApprove runInSandbox _ _ _ => .execCmd runInSandbox
    | .reject reason => .rejected reason
    | .askUser _ => .askUserOutcome

/-! ## Spec-side helpers for the compound-shell-expression claim

These restate the claim's conditions (segments, operators, parentheses) as
direct functions of the token stream, to be compared with the evaluator. -/

/-- The command segments of a token stream: maximal runs of string tokens
(`cur` is the partial segment accumulated so far). -/
def segmentsAux (cur : List String) : List ParseEntry → List (List String)
  | [] => if cur.isEmpty then [] else [cur]
  | .str s :: rest => segmentsAux (cur ++ [s]) rest
  | .op _ :: rest =>
    if cur.isEmpty then segmentsAux [] rest else cur :: segmentsAux [] rest
  | .comment _ :: rest => segmentsAux cur rest

/-- The command segments of a token stream. -/
def segsOf (parts : List ParseEntry) : List (List String) := segmentsAux [] parts

/-- Every operator token is on the safe-operator allow-list. -/
def partsOpsSafe (parts : List ParseEntry) : Bool :=
  parts.all (fun e => match e with
    | .op o => o ∈ SAFE_SHELL_OPERATORS
    | _ => true)

/-- No string token is a parenthesis or brace. -/
def partsNoParen (parts : List ParseEntry) : Bool :=
  parts.all (fun e => match e with
    | .str s => !(isParenToken s)
    | _ => true)

/-- The token stream contains no comment tokens (shell-quote emits these only
for `#` comments; the claim's universe of compound expressions). -/
def partsNoComment (parts : List ParseEntry) : Bool :=
  parts.all (fun e => match e with
    | .comment _ => false
    | _ => true)

/-- The conditions of the claim about compound shell expressions: every
command segment classifies as safe, every operator is on the allow-list, and
no parenthesis/brace token occurs. -/
def claimShellConds (platform : String) (parts : List ParseEntry) : Bool :=
  (segsOf parts).all (fun seg => (isSafeCommand platform seg).isSome) &&
    partsOpsSafe parts && partsNoParen parts

/-- Left-biased choice on optional reasons (the `firstReason` update of
`flushSegment`), used to characterize the shell-expression evaluator. -/
def orE (a b : Option SafeCommandReason) : Option SafeCommandReason :=
  match a with
  | some r => some r
  | Option.none => b

/-- The conditions of the (amended) claim about the `git` handler, as a
direct predicate on the subcommand token and the remaining arguments. -/
def gitClaimCond (sub : String) (rest : List String) : Bool :=
  let s := jsToLower sub
  s ∈ ["status", "diff", "log", "show", "rev-parse", "shortlog -s -n"] ||
    ((s = "branch" || s = "tag") &&
      (rest.isEmpty || rest.any (fun a => jsStartsWith a "-"))) ||
    (s = "shortlog" && decide (rest.take 2 = ["-s", "-n"])) ||
    (s = "apply" && rest.contains "--check" && rest.contains "--stat")

/-! ## Concrete environments used by witnesses and counterexamples -/

/-- A concrete `Extern` for a Linux host with no patch-touched files and a
tokenizer that always fails. -/
def extLinux : Extern :=
  ⟨fun _ => [], fun _ => [], fun _ => Option.none, "/", "linux"⟩

/-- A concrete `Extern` whose patches touch `/w/a.ts` (inside the writable
root `/w` used by the corresponding theorems). -/
def extInScope : Extern :=
  ⟨fun _ => ["/w/a.ts"], fun _ => [], fun _ => Option.none, "/", "linux"⟩

/-- A concrete `Extern` whose patches touch `/etc/passwd` (outside the
writable root `/w` used by the corresponding theorems). -/
def extOutScope : Extern :=
  ⟨fun _ => ["/etc/passwd"], fun _ => [], fun _ => Option.none, "/", "linux"⟩

/-! ## Helper lemmas -/

/-- Truncation warnings never change the exit code. -/
theorem addTruncationWarnings_exitCode (r : ExecResult) (h1 h2 : Bool) :
    (addTruncationWarningsIfNecessary r h1 h2).exitCode = r.exitCode := by
  unfold addTruncationWarningsIfNecessary
  split <;> rfl

/-- Truncation warnings only append to stderr. -/
theorem addTruncationWarnings_stderr_prefix (r : ExecResult) (h1 h2 : Bool) :
    r.stderr.data <+: (addTruncationWarningsIfNecessary r h1 h2).stderr.data := by
  unfold addTruncationWarningsIfNecessary
  split
  · exact List.prefix_refl _
  · cases h2 <;> simp

/-- `orE a Option.none = a`. -/
theorem orE_none (a : Option SafeCommandReason) : orE a Option.none = a := by
  cases a <;> rfl

/-- Once a first reason is present, later flushes cannot change it. -/
theorem orE_absorb (fr : Option SafeCommandReason) (a : SafeCommandReason)
    (x : Option SafeCommandReason) : orE (orE fr (some a)) x = orE fr (some a) := by
  cases fr <;> rfl

/-- Characterization of the evaluator loop: starting from a partial segment
`cur` and first reason `fr`, the loop succeeds exactly when every (completed)
segment is safe, every operator is allow-listed and no parenthesis token
occurs, and then returns `fr` or, failing that, the first segment's reason. -/
theorem safeLoop_char (platform : String) (parts : List ParseEntry) :
    ∀ (cur : List String) (fr : Option SafeCommandReason),
      partsNoComment parts = true →
      safeLoop platform cur fr parts =
        (if ((segmentsAux cur parts).all (fun seg => (isSafeCommand platform seg).isSome) &&
            partsOpsSafe parts && partsNoParen parts) then
          orE fr (((segmentsAux cur parts).head?).bind (fun seg => isSafeCommand platform seg))
        else Option.none) := by
  induction parts with
  | nil =>
    intro cur fr _
    rcases cur with _ | ⟨c, cs⟩
    · simp [safeLoop, flushSegment, segmentsAux, partsOpsSafe, partsNoParen, orE_none]
    · cases hsafe : isSafeCommand platform (c :: cs) with
      | none => simp [safeLoop, flushSegment, segmentsAux, partsOpsSafe, partsNoParen, hsafe]
      | some a =>
        simp [safeLoop, flushSegment, segmentsAux, partsOpsSafe, partsNoParen, hsafe, orE]
  | cons e rest ih =>
    cases e with
    | str s =>
      intro cur fr hnc
      have hnc' : partsNoComment rest = true := by
        simpa [partsNoComment] using hnc
      by_cases hp : isParenToken s = true
      · simp [safeLoop, hp, partsNoParen, segmentsAux, List.all_cons]
      · have hstep : safeLoop platform cur fr (ParseEntry.str s :: rest) =
            safeLoop platform (cur ++ [s]) fr rest := by
          simp [safeLoop, hp]
        rw [hstep, ih (cur ++ [s]) fr hnc']
        have hseg : segmentsAux cur (ParseEntry.str s :: rest) =
            segmentsAux (cur ++ [s]) rest := rfl
        simp [hseg, partsOpsSafe, partsNoParen, List.all_cons, hp]
    | op o =>
      intro cur fr hnc
      have hnc' : partsNoComment rest = true := by
        simpa [partsNoComment] using hnc
      by_cases ho : o ∈ SAFE_SHELL_OPERATORS
      · rcases cur with _ | ⟨c, cs⟩
        · have hstep : safeLoop platform [] fr (ParseEntry.op o :: rest) =
              safeLoop platform [] fr rest := by
            simp [safeLoop, flushSegment, ho]
          rw [hstep, ih [] fr hnc']
          simp [segmentsAux, partsOpsSafe, partsNoParen, List.all_cons, ho]
        · cases hsafe : isSafeCommand platform (c :: cs) with
          | none =>
            simp [safeLoop, flushSegment, hsafe, segmentsAux, List.all_cons]
          | some a =>
            have hstep : safeLoop platform (c :: cs) fr (ParseEntry.op o :: rest) =
                safeLoop platform [] (orE fr (some a)) rest := by
              simp [safeLoop, flushSegment, hsafe, ho, orE]
            rw [hstep, ih [] (orE fr (some a)) hnc']
            simp [segmentsAux, partsOpsSafe, partsNoParen, List.all_cons, ho, hsafe,
              orE_absorb]
      · rcases cur with _ | ⟨c, cs⟩
        · simp [safeLoop, flushSegment, ho, partsOpsSafe, List.all_cons]
        · cases hsafe : isSafeCommand platform (c :: cs) with
          | none => simp [safeLoop, flushSegment, hsafe, segmentsAux, List.all_cons]
          | some a =>
            simp [safeLoop, flushSegment, hsafe, ho, partsOpsSafe, List.all_cons]
    | comment c =>
      intro cur fr hnc
      simp [partsNoComment] at hnc

/-- The patch sub-decision never returns a `reject` verdict. -/
theorem canAutoApproveApplyPatch_ne_reject (ext : Extern) (a : String)
    (wd : Option String) (roots : List String) (policy : ApprovalPolicy) (r : String) :
    canAutoApproveApplyPatch ext a wd roots policy ≠ .reject r := by
  unfold canAutoApproveApplyPatch
  split_ifs <;> simp

/-- The shared fallback never returns a `reject` verdict. -/
theorem canAutoApproveFallback_ne_reject (policy : ApprovalPolicy) (sfx r : String) :
    canAutoApproveFallback policy sfx ≠ .reject r := by
  unfold canAutoApproveFallback
  split_ifs <;> simp

/-! ## Claim theorems -/

/-- C1 (amended), counterexample to the claim as stated: `head` with an
argument containing `$` still returns a justification, where the claim
demands `null`. -/
theorem c1_counterexample :
    isSafeCommand "linux" ["head", "$(rm -rf /)"] =
      some ⟨"Show file head", "Reading files"⟩ ∧
    hasShellMeta "$(rm -rf /)" = true :=
  ⟨rfl, rfl⟩

/-- C1 (amended): among the search/view commands, only `ls`, `cat` and `grep`
decline when an argument after the program name contains a backtick or `$`;
`head`, `tail`, `wc`, `which`, `rg` and `nl` return their justification
unconditionally, whatever the arguments. -/
theorem c1_theorem (platform : String) (args : List String) :
    isSafeCommand platform ("ls" :: args) =
      (if args.any hasShellMeta then Option.none
       else some ⟨"List directory", "Searching"⟩) ∧
    isSafeCommand platform ("cat" :: args) =
      (if args.any hasShellMeta then Option.none
       else some ⟨"View file contents", "Reading files"⟩) ∧
    isSafeCommand platform ("grep" :: args) =
      (if args.any hasShellMeta then Option.none
       else some ⟨"Text search (grep)", "Searching"⟩) ∧
    isSafeCommand platform ("head" :: args) = some ⟨"Show file head", "Reading files"⟩ ∧
    isSafeCommand platform ("tail" :: args) = some ⟨"Show file tail", "Reading files"⟩ ∧
    isSafeCommand platform ("wc" :: args) = some ⟨"Word count", "Reading files"⟩ ∧
    isSafeCommand platform ("which" :: args) = some ⟨"Locate command", "Searching"⟩ ∧
    isSafeCommand platform ("rg" :: args) = some ⟨"Ripgrep search", "Searching"⟩ ∧
    isSafeCommand platform ("nl" :: args) =
      some ⟨"View file with line numbers", "Reading files"⟩ := by
  cases args <;> exact ⟨rfl, rfl, rfl, rfl, rfl, rfl, rfl, rfl, rfl⟩

/-- C2 (amended), counterexample to the claim as stated: under `full-auto` a
PowerShell invocation is auto-approved with `runInSandbox = true`, where the
claim demands `runInSandbox = false` under every policy. -/
theorem c2_counterexample :
    canAutoApprove extLinux ["powershell", "Remove-Item", "-Recurse"] Option.none
        .fullAuto [] =
      .autoApprove true "Approval policy is 'full-auto'" "Running commands" Option.none :=
  rfl

/-- C2 (amended): a command whose first token lower-cases to `powershell` or
`pwsh` is always classified safe by `isSafeCommand`, and `canAutoApprove`
auto-approves it under every policy — with `runInSandbox = false` under
`suggest`, `auto-edit`, `full_auto` and `none`, but `runInSandbox = true`
under `full-auto` (the policy-wide branch). -/
theorem c2_theorem (ext : Extern) (c0 : String) (args : List String)
    (workdir : Option String) (policy : ApprovalPolicy) (roots : List String)
    (h : jsToLower c0 = "powershell" ∨ jsToLower c0 = "pwsh") :
    isSafeCommand ext.platform (c0 :: args) = some ⟨"PowerShell command", "PowerShell"⟩ ∧
    canAutoApprove ext (c0 :: args) workdir policy roots =
      (match policy with
       | .fullAuto =>
         .autoApprove true "Approval policy is 'full-auto'" "Running commands" Option.none
       | .fullAutoUI =>
         .autoApprove false "Approval policy is 'full_auto'" "Running commands" Option.none
       | .nonePolicy =>
         .autoApprove false "Approval policy is 'none'" "Running commands" Option.none
       | _ => .autoApprove false "PowerShell command" "PowerShell" Option.none) := by
  have hsafe : isSafeCommand ext.platform (c0 :: args) =
      some ⟨"PowerShell command", "PowerShell"⟩ := by
    unfold isSafeCommand
    rcases h with h | h <;> simp [h]
  have hne : ¬(c0 = "apply_patch") := by
    intro he
    subst he
    rcases h with h | h <;> revert h <;> decide
  refine ⟨hsafe, ?_⟩
  cases policy <;>
    simp [canAutoApprove, isFullAutoOrNone, hne, hsafe, policyStr]

/-- C2 witness: concrete instances of `c2_theorem`. -/
theorem c2_witness :
    isSafeCommand extLinux.platform ["pwsh", "rm"] =
      some ⟨"PowerShell command", "PowerShell"⟩ ∧
    canAutoApprove extLinux ["pwsh", "rm"] Option.none .suggest [] =
      .autoApprove false "PowerShell command" "PowerShell" Option.none := by
  have h := c2_theorem extLinux "pwsh" ["rm"] Option.none .suggest [] (Or.inr (by decide))
  exact ⟨h.1, h.2⟩

/-- C3 (amended), counterexample to the claim as stated: under `full-auto`,
a well-formed `apply_patch` whose every touched path is inside a writable
root is auto-approved with `runInSandbox = true` and the generic policy
reason — the claim demands `runInSandbox = false` with reason "constrained
to writable paths". -/
theorem c3_counterexample :
    canAutoApprove extInScope ["apply_patch", "p"] Option.none .fullAuto ["/w"] =
      .autoApprove true "Approval policy is 'full-auto'" "Editing" (some "p") ∧
    isWritePatchConstrainedToWritablePaths extInScope "p" Option.none ["/w"] = true :=
  ⟨rfl, rfl⟩

/-- C3 (amended): for a well-formed `apply_patch` command, the policy-wide
branch preempts the patch sub-decision under `full-auto` (sandboxed
auto-approve regardless of scope), `full_auto` and `none` (unsandboxed
auto-approve regardless of scope); `suggest` always asks; the scope-sensitive
sub-decision runs under `auto-edit`: in-scope patches are auto-approved
unsandboxed with the "constrained to writable paths" reason, out-of-scope
patches ask the user. -/
theorem c3_theorem (ext : Extern) (patch : String) (workdir : Option String)
    (roots : List String) :
    canAutoApprove ext ["apply_patch", patch] workdir .fullAuto roots =
      .autoApprove true "Approval policy is 'full-auto'" "Editing" (some patch) ∧
    canAutoApprove ext ["apply_patch", patch] workdir .fullAutoUI roots =
      .autoApprove false "Approval policy is 'full_auto'" "Editing" (some patch) ∧
    canAutoApprove ext ["apply_patch", patch] workdir .nonePolicy roots =
      .autoApprove false "Approval policy is 'none'" "Editing" (some patch) ∧
    canAutoApprove ext ["apply_patch", patch] workdir .suggest roots =
      .askUser (some patch) ∧
    (isWritePatchConstrainedToWritablePaths ext patch workdir roots = true →
      canAutoApprove ext ["apply_patch", patch] workdir .autoEdit roots =
        .autoApprove false "apply_patch command is constrained to writable paths"
          "Editing" (some patch)) ∧
    (isWritePatchConstrainedToWritablePaths ext patch workdir roots = false →
      canAutoApprove ext ["apply_patch", patch] workdir .autoEdit roots =
        .askUser (some patch)) := by
  refine ⟨rfl, rfl, rfl, rfl, fun h => ?_, fun h => ?_⟩ <;>
    simp [canAutoApprove, canAutoApproveApplyPatch, isFullAutoOrNone, h]

/-- C3 witness: concrete instances of `c3_theorem` for an in-scope and an
out-of-scope patch under `auto-edit`. -/
theorem c3_witness :
    canAutoApprove extInScope ["apply_patch", "p"] Option.none .autoEdit ["/w"] =
      .autoApprove false "apply_patch command is constrained to writable paths"
        "Editing" (some "p") ∧
    canAutoApprove extOutScope ["apply_patch", "p"] Option.none .autoEdit ["/w"] =
      .askUser (some "p") :=
  ⟨(c3_theorem extInScope "p" Option.none ["/w"]).2.2.2.2.1 rfl,
   (c3_theorem extOutScope "p" Option.none ["/w"]).2.2.2.2.2 rfl⟩

/-- C4 (amended), counterexample to the claim as stated: `git branch -a` has
an extra flag, so the claim demands `null`, but the handler returns a
justification; conversely `git branch work` has no extra flags, so the claim
demands a justification, but the handler returns `null` (the guard declines
exactly when every extra argument is a non-flag). -/
theorem c4_counterexample :
    isSafeCommand "linux" ["git", "branch", "-a"] =
      some ⟨"List branches", "Versioning"⟩ ∧
    isSafeCommand "linux" ["git", "branch", "work"] = Option.none :=
  ⟨rfl, rfl⟩

/-- C4 (amended): `git` is classified safe exactly when the lower-cased
subcommand token is `status`, `diff`, `log`, `show`, `rev-parse` (or the
literal token `shortlog -s -n`); or is `branch`/`tag` with either no extra
arguments or at least one extra argument starting with `-` (extra arguments
that are all non-flags decline); or is `shortlog` immediately followed by
`-s -n`; or is `apply` with both `--check` and `--stat` among the remaining
arguments.  Every other git subcommand (e.g. `push`) returns `null`. -/
theorem c4_theorem (platform sub : String) (rest : List String) :
    (isSafeCommand platform ("git" :: sub :: rest)).isSome = gitClaimCond sub rest := by
  have hd : isSafeCommand platform ("git" :: sub :: rest) =
      gitHandler ("git" :: sub :: rest) := rfl
  rw [hd]
  unfold gitHandler gitClaimCond gitSafeSub
  simp only [List.get?_cons_succ, List.get?_cons_zero, List.length_cons,
    List.drop_succ_cons, List.drop_zero, List.take_succ_cons, List.contains_cons]
  generalize hs : jsToLower sub = s
  by_cases h0 : s = ""
  · simp [h0]
  by_cases h1 : s = "status"
  · subst h1; simp
  by_cases h2 : s = "diff"
  · subst h2; simp
  by_cases h3 : s = "log"
  · subst h3; simp
  by_cases h4 : s = "show"
  · subst h4; simp
  by_cases h5 : s = "rev-parse"
  · subst h5; simp
  by_cases h6 : s = "shortlog -s -n"
  · subst h6; simp
  by_cases h7 : s = "branch"
  · subst h7
    rcases rest with _ | ⟨a, t⟩
    · simp
    · cases hb : (a :: t).any (fun arg => jsStartsWith arg "-") <;>
        simp [← List.not_any_eq_all_not, hb]
  by_cases h8 : s = "tag"
  · subst h8
    rcases rest with _ | ⟨a, t⟩
    · simp
    · cases hb : (a :: t).any (fun arg => jsStartsWith arg "-") <;>
        simp [← List.not_any_eq_all_not, hb]
  by_cases h9 : s = "shortlog"
  · subst h9
    rcases rest with _ | ⟨a, _ | ⟨b, t⟩⟩
    · simp
    · simp
    · have hlen : t.length + 1 + 1 + 1 + 1 ≥ 4 := by omega
      by_cases ha : a = "-s" <;> by_cases hb2 : b = "-n" <;> simp [ha, hb2, hlen]
  by_cases h10 : s = "apply"
  · subst h10
    have hcs : sub ≠ "--check" := by
      intro he; rw [he] at hs; exact absurd hs (by decide)
    have hss : sub ≠ "--stat" := by
      intro he; rw [he] at hs; exact absurd hs (by decide)
    by_cases hin : "--check" ∈ rest <;> by_cases hin2 : "--stat" ∈ rest <;>
      simp [beq_iff_eq, Ne.symm hcs, Ne.symm hss, hin, hin2]
  simp [h0, h1, h2, h3, h4, h5, h6, h7, h8, h9, h10]

/-- C5 (amended), counterexample to the claim as stated: the traversal path
normalizes to `/home/etc/passwd` (the two `..` segments pop `proj` and `u`),
not to `/etc/passwd`. -/
theorem c5_counterexample :
    resolvePathAgainstWorkdir "/" "/home/u/proj/../../etc/passwd" Option.none ≠
      "/etc/passwd" ∧
    NodePath.normalize "/home/u/proj/../../etc/passwd" = "/home/etc/passwd" :=
  ⟨by decide, rfl⟩

/-- C5 (amended): with writable root `/home/u/proj`, the candidate
`/home/u/proj/a.ts` is in scope, `/home/u/proj-evil/a.ts` is out of scope
(segment-boundary, not string-prefix), and `/home/u/proj/../../etc/passwd`
normalizes to `/home/etc/passwd` and is out of scope. -/
theorem c5_theorem :
    isPathConstrainedTowritablePaths "/" "/home/u/proj/a.ts" Option.none
      ["/home/u/proj"] = true ∧
    isPathConstrainedTowritablePaths "/" "/home/u/proj-evil/a.ts" Option.none
      ["/home/u/proj"] = false ∧
    isPathConstrainedTowritablePaths "/" "/home/u/proj/../../etc/passwd" Option.none
      ["/home/u/proj"] = false ∧
    resolvePathAgainstWorkdir "/" "/home/u/proj/../../etc/passwd" Option.none =
      "/home/etc/passwd" :=
  ⟨rfl, rfl, rfl, rfl⟩

/-- C6 (confirmed): the concrete policy matrix — `rm -rf /` asks the user
under `suggest` and is auto-approved sandboxed under `full-auto`; `pwd` is
auto-approved unsandboxed under `suggest`. -/
theorem c6_theorem (ext : Extern) :
    canAutoApprove ext ["rm", "-rf", "/"] Option.none .suggest [] =
      .askUser Option.none ∧
    canAutoApprove ext ["rm", "-rf", "/"] Option.none .fullAuto [] =
      .autoApprove true "Approval policy is 'full-auto'" "Running commands" Option.none ∧
    canAutoApprove ext ["pwd"] Option.none .suggest [] =
      .autoApprove false "Print working directory" "Navigating" Option.none :=
  ⟨rfl, rfl, rfl⟩

/-- C7 (amended), counterexample to the claim as stated: the one-token stream
`[;]` has no command segments and only allow-listed operators — so the
claim's conditions hold — yet evaluation fails. -/
theorem c7_counterexample :
    isEntireShellExpressionSafe "linux" [ParseEntry.op ";"] = Option.none ∧
    claimShellConds "linux" [ParseEntry.op ";"] = true :=
  ⟨rfl, rfl⟩

/-- C7 (amended): for a token stream without comment tokens, evaluation
succeeds — returning the classification of the *first* command segment — if
and only if the stream has at least one command segment, every command
segment classifies as safe, every operator is in the allow-list, and no
parenthesis or brace token occurs anywhere; otherwise it returns `null`. -/
theorem c7_theorem (platform : String) (parts : List ParseEntry)
    (hnc : partsNoComment parts = true) :
    isEntireShellExpressionSafe platform parts =
      (if (!(segsOf parts).isEmpty && claimShellConds platform parts) then
        isSafeCommand platform ((segsOf parts).headD [])
      else Option.none) := by
  unfold isEntireShellExpressionSafe
  rcases parts with _ | ⟨e, rest⟩
  · simp [segsOf, segmentsAux, claimShellConds]
  · simp only [List.isEmpty_cons, Bool.false_eq_true, if_false]
    rw [safeLoop_char platform (e :: rest) [] Option.none hnc]
    have hseg : segmentsAux [] (e :: rest) = segsOf (e :: rest) := rfl
    rw [hseg]
    unfold claimShellConds
    cases hsg : segsOf (e :: rest) with
    | nil => simp [hsg, orE]
    | cons sg sgs => simp [hsg, orE]

/-- C7 witness: a concrete compound expression `ls && pwd` evaluated through
`c7_theorem`. -/
theorem c7_witness :
    isEntireShellExpressionSafe "linux"
        [ParseEntry.str "ls", ParseEntry.op "&&", ParseEntry.str "pwd"] =
      some ⟨"List directory", "Searching"⟩ := by
  have h := c7_theorem "linux"
    [ParseEntry.str "ls", ParseEntry.op "&&", ParseEntry.str "pwd"] rfl
  exact h.trans (by decide)

/-- C8 (confirmed): under every policy, `canAutoApprove` returns a Reject
verdict exactly for a malformed `apply_patch` invocation (first token
`apply_patch` with argv not exactly two elements — the second element is a
string by construction in this embedding); and a shell-tokenizer failure on a
`bash -lc` script never rejects: under `suggest` and `auto-edit` it asks the
user. -/
theorem c8_theorem (ext : Extern) (command : List String) (workdir : Option String)
    (policy : ApprovalPolicy) (roots : List String) :
    (∀ reason, canAutoApprove ext command workdir policy roots = .reject reason ↔
      (command.head? = some "apply_patch" ∧ command.length ≠ 2 ∧
        reason = "Invalid apply_patch command")) ∧
    (∀ script, command = ["bash", "-lc", script] →
      tryParseApplyPatch script = Option.none →
      ext.parseBash script = Option.none →
      (policy = ApprovalPolicy.suggest ∨ policy = ApprovalPolicy.autoEdit) →
      canAutoApprove ext command workdir policy roots = .askUser Option.none) := by
  constructor
  · intro reason
    unfold canAutoApprove
    by_cases hfa : isFullAutoOrNone policy = true
    · rw [if_pos hfa]
      split_ifs with hc
      · simp only [Bool.and_eq_true, decide_eq_true_eq] at hc
        simp only [SafetyAssessment.reject.injEq]
        exact ⟨fun h => ⟨hc.1, hc.2, h.symm⟩, fun h => h.2.2.symm⟩
      · simp only [Bool.and_eq_true, decide_eq_true_eq, not_and] at hc
        refine iff_of_false (by simp) (fun h => (hc h.1) h.2.1)
    · rw [if_neg hfa]
      by_cases hap : command.head? = some "apply_patch"
      · rw [if_pos hap]
        rcases command with _ | ⟨c0, _ | ⟨c1, _ | ⟨c2, cmdrest⟩⟩⟩
        · simp at hap
        · simp only [SafetyAssessment.reject.injEq]
          exact ⟨fun h => ⟨hap, by simp, h.symm⟩, fun h => h.2.2.symm⟩
        · exact iff_of_false
            (canAutoApproveApplyPatch_ne_reject ext c1 workdir roots policy reason)
            (fun h => h.2.1 rfl)
        · simp only [SafetyAssessment.reject.injEq]
          refine ⟨fun h => ⟨hap, ?_, h.symm⟩, fun h => h.2.2.symm⟩
          simp only [List.length_cons]
          omega
      · rw [if_neg hap]
        have hrhs : ¬(command.head? = some "apply_patch" ∧ command.length ≠ 2 ∧
            reason = "Invalid apply_patch command") := fun h => hap h.1
        simp only [hrhs, iff_false]
        split
        · simp
        · split
          · split
            · exact canAutoApproveApplyPatch_ne_reject ext _ workdir roots policy reason
            · split
              · exact canAutoApproveFallback_ne_reject policy _ reason
              · split
                · simp
                · exact canAutoApproveFallback_ne_reject policy _ reason
          · exact canAutoApproveFallback_ne_reject policy _ reason
  · intro script hcmd hpatch hparse hpol
    subst hcmd
    have hsafe : isSafeCommand ext.platform ["bash", "-lc", script] = Option.none := rfl
    rcases hpol with h | h <;> subst h <;>
      simp [canAutoApprove, isFullAutoOrNone, hsafe, hpatch, hparse,
        canAutoApproveFallback]

/-- C8 witness: a malformed `apply_patch` is rejected even under `full-auto`,
and an unparsable `bash -lc` script asks the user under `suggest`
(`extLinux`'s tokenizer always fails). -/
theorem c8_witness :
    canAutoApprove extLinux ["apply_patch"] Option.none .fullAuto [] =
      .reject "Invalid apply_patch command" ∧
    canAutoApprove extLinux ["bash", "-lc", "for f in *; do echo $f; done"]
      Option.none .suggest [] = .askUser Option.none := by
  refine ⟨?_, ?_⟩
  · exact ((c8_theorem extLinux ["apply_patch"] Option.none .fullAuto []).1
      "Invalid apply_patch command").2 ⟨rfl, by decide, rfl⟩
  · exact (c8_theorem extLinux ["bash", "-lc", "for f in *; do echo $f; done"]
      Option.none .suggest []).2 "for f in *; do echo $f; done" rfl rfl rfl (Or.inl rfl)

/-- C9 (confirmed): the raw executor's result mapping — an explicit exit
status is used as is; a recognized signal maps to 128 + its number; an
unrecognized or missing signal defaults to 1; and a spawn/runtime error
resolves to exit code 1 with the error message at the start of stderr.
(Resolution is total: both handlers are total functions into `ExecResult`.) -/
theorem c9_theorem (signals : List (String × Nat)) (stdout stderr : String)
    (hitOut hitErr : Bool) :
    (∀ (c : Int) (signal : Option String),
      (rawExecOnExit signals (some c) signal stdout stderr hitOut hitErr).exitCode = c) ∧
    (∀ (s : String) (n : Nat), signals.lookup s = some n →
      (rawExecOnExit signals Option.none (some s) stdout stderr hitOut hitErr).exitCode =
        128 + n) ∧
    (∀ (s : String), signals.lookup s = Option.none →
      (rawExecOnExit signals Option.none (some s) stdout stderr hitOut hitErr).exitCode = 1) ∧
    (rawExecOnExit signals Option.none Option.none stdout stderr hitOut hitErr).exitCode
      = 1 ∧
    (∀ err : String, (rawExecOnError err hitOut hitErr).exitCode = 1 ∧
      err.data <+: (rawExecOnError err hitOut hitErr).stderr.data) := by
  refine ⟨?_, ?_, ?_, ?_, ?_⟩
  · intro c signal
    simp [rawExecOnExit, addTruncationWarnings_exitCode, exitCodeFromStatus]
  · intro s n hs
    simp [rawExecOnExit, addTruncationWarnings_exitCode, exitCodeFromStatus, hs]
  · intro s hs
    simp [rawExecOnExit, addTruncationWarnings_exitCode, exitCodeFromStatus, hs]
  · simp [rawExecOnExit, addTruncationWarnings_exitCode, exitCodeFromStatus]
  · intro err
    refine ⟨?_, ?_⟩
    · simp [rawExecOnError, addTruncationWarnings_exitCode]
    · exact addTruncationWarnings_stderr_prefix ⟨"", err, 1⟩ hitOut hitErr

/-- C9 witness: concrete instances of `c9_theorem` with a one-entry signal
table. -/
theorem c9_witness :
    (rawExecOnExit [("SIGKILL", 9)] (some 7) Option.none "" "" false false).exitCode
      = 7 ∧
    (rawExecOnExit [("SIGKILL", 9)] Option.none (some "SIGKILL") "" "" false
        false).exitCode = 128 + 9 ∧
    (rawExecOnExit [("SIGKILL", 9)] Option.none (some "SIGWINCH") "" "" false
        false).exitCode = 1 ∧
    (rawExecOnError "spawn ENOENT" false false).exitCode = 1 := by
  obtain ⟨h1, h2, h3, _, h5⟩ := c9_theorem [("SIGKILL", 9)] "" "" false false
  exact ⟨h1 7 Option.none, h2 "SIGKILL" 9 rfl, h3 "SIGWINCH" rfl, (h5 "spawn ENOENT").1⟩

/-- C10 (confirmed): after an ALWAYS answer adds a command's derived key to
the session approval cache, any command with the same derived key executes
immediately with `runInSandbox = false`, under every policy and whatever the
safety assessment would have said. -/
theorem c10_theorem (ext : Extern) (cache : List String) (cmd cmd' : List String)
    (workdir : Option String) (policy : ApprovalPolicy) (roots : List String)
    (h : deriveCommandKey cmd' = deriveCommandKey cmd) :
    handleExecCommandDecision ext (alwaysApproveAdd cache cmd) cmd' workdir policy
      roots = .execCmd false := by
  have hmem : deriveCommandKey cmd' ∈ alwaysApproveAdd cache cmd := by
    rw [h]
    unfold alwaysApproveAdd
    by_cases hc : deriveCommandKey cmd ∈ cache
    · simp [hc]
    · simp [hc]
  unfold handleExecCommandDecision
  rw [if_pos hmem]

/-- C10 witness: a concrete instance of `c10_theorem`. -/
theorem c10_witness :
    handleExecCommandDecision extLinux (alwaysApproveAdd [] ["git", "status"])
      ["git", "status"] Option.none .suggest [] = .execCmd false :=
  c10_theorem extLinux [] ["git", "status"] ["git", "status"] Option.none .suggest [] rfl

end Codex
